import Mathlib

/-!
Verification development for the notebook `distribute_flax_models.ipynb`
(data-parallel training of a flax MLP with JAX, comparing the modes
`jit_single`, `jit_multi` and `pmap`).

Modelling conventions.

* Machine floats are modelled by exact rationals `ℚ`; "numerically
  equivalent (within floating-point tolerance)" becomes exact equality of
  the rational values, and a genuine value difference refutes it.
* A JAX array is modelled by its value: a 1-D array (one sample) is
  `ℕ → ℚ`, a 2-D array of `n` rows is a `DArr` (row count plus row values);
  entries outside the declared ranges are never read by any operation.
* `jax.jit` is semantics-preserving compilation: it changes how a function
  is executed, not which value it returns, so it is modelled by the
  identity on functions.  Device placement (`jax.device_put`, sharding)
  changes layout, not values; it is recorded as a placement tag.
* `jax.value_and_grad(loss_fn)` returns the mathematical gradient of the
  loss.  The loss is `jnp.mean((y_pred - y) ** 2)` over a
  `(batch, output_dim)` array, i.e. the mean over samples of the
  per-sample mean-squared error, so by linearity of differentiation its
  gradient is the average over samples of the per-sample gradients; the
  per-sample gradient is computed by the chain rule (backpropagation)
  through the MLP, with the ReLU derivative taken to be `0` at `0`, as JAX
  defines it.
* The optimizer (`optax.adam`) is, per the notebook's usage, an opaque
  gradient transformation: `flax`'s `TrainState` stores its `update`
  function and internal state, and `apply_gradients` threads them through.
-/

namespace DistrFlax

/-- The activation `flax.linen.relu` on a single entry. -/
def relu (v : ℚ) : ℚ := max v 0

/-- The derivative JAX assigns to `relu`: `1` for positive inputs, `0`
otherwise (JAX defines the gradient of `relu` at `0` to be `0`). -/
def reluDeriv (v : ℚ) : ℚ := if 0 < v then 1 else 0

/-- The architecture hyperparameters of the notebook's `MLP` module:
`n_layers` hidden `Dense(hidden_dim)` layers followed by a
`Dense(output_dim)` output layer, applied to inputs of width `input_dim`.
The notebook hardcodes `input_dim = 1024`, `hidden_dim = 2056`,
`output_dim = 10`, `n_layers = 90`; the development keeps them symbolic. -/
structure Arch where
  input_dim : ℕ
  hidden_dim : ℕ
  output_dim : ℕ
  n_layers : ℕ

/-- A sample (row of a 2-D array). -/
abbrev Vec := ℕ → ℚ

/-- The parameters of the MLP, indexed by layer: layers `0 … n_layers - 1`
are the hidden `Dense` layers, layer `n_layers` is the output layer.
`kernel l i j` is the weight from input coordinate `i` to output
coordinate `j` of layer `l` (flax `Dense` kernels have shape
`(in, out)`), `bias l j` its bias.  Gradients have the same shape and
reuse this structure. -/
@[ext]
structure Params where
  kernel : ℕ → ℕ → ℕ → ℚ
  bias : ℕ → ℕ → ℚ

/-- Input width of layer `k`: the first layer reads the raw input, every
later layer reads a hidden activation of width `hidden_dim`. -/
def inDim (A : Arch) (k : ℕ) : ℕ :=
  if k = 0 then A.input_dim else A.hidden_dim

/-- One `flax.linen.Dense` layer: `y = x @ kernel + bias`, coordinate `j`
of the output, with input width `din`. -/
def dense (p : Params) (l din : ℕ) (x : Vec) (j : ℕ) : ℚ :=
  p.bias l j + ∑ i ∈ Finset.range din, x i * p.kernel l i j

/-- Activations of the MLP on one sample: `acts A p x k` is the input to
layer `k` (so `acts … 0 = x`, and each hidden layer applies `dense`
followed by `relu`, exactly the loop `x = relu(layer(x))` in
`MLP.__call__`). -/
def acts (A : Arch) (p : Params) (x : Vec) : ℕ → Vec
  | 0 => x
  | k + 1 => fun j => relu (dense p k (inDim A k) (acts A p x k) j)

/-- The MLP forward pass on one sample (`model.apply`): the hidden stack
followed by the output layer `x = self.output_layer(x)`. -/
def predict (A : Arch) (p : Params) (x : Vec) : Vec :=
  dense p A.n_layers (inDim A A.n_layers) (acts A p x A.n_layers)

/-- A 2-D array value: `n` rows, row `b` being `val b`. -/
structure DArr where
  n : ℕ
  val : ℕ → Vec

/-- The notebook's `loss_fn`: `jnp.mean((y_pred - y) ** 2)` over the `(x.n, output_dim)`
array of elementwise squared differences. -/
def batchLoss (A : Arch) (p : Params) (x y : DArr) : ℚ :=
  (∑ b ∈ Finset.range x.n, ∑ j ∈ Finset.range A.output_dim,
      (predict A p (x.val b) j - y.val b j) ^ 2) /
    ((x.n : ℚ) * (A.output_dim : ℚ))

/-- Derivative of the per-sample loss
`(∑ j, (predict j - y j)^2) / output_dim` with respect to prediction
coordinate `j` (for `j < output_dim`). -/
def dPred (A : Arch) (p : Params) (x y : Vec) (j : ℕ) : ℚ :=
  2 * (predict A p x j - y j) / (A.output_dim : ℚ)

/-- Backpropagated derivative of the per-sample loss with respect to the
activations: `deltaA A p x y m i` is `∂loss / ∂(acts (n_layers - m) i)`,
defined by descending through the layers from the output (`m = 0` is the
input to the output layer). -/
def deltaA (A : Arch) (p : Params) (x y : Vec) : ℕ → Vec
  | 0 => fun i =>
      ∑ j ∈ Finset.range A.output_dim, p.kernel A.n_layers i j * dPred A p x y j
  | m + 1 => fun i =>
      ∑ j ∈ Finset.range A.hidden_dim,
        p.kernel (A.n_layers - m - 1) i j *
          (deltaA A p x y m j *
            reluDeriv (dense p (A.n_layers - m - 1)
              (inDim A (A.n_layers - m - 1)) (acts A p x (A.n_layers - m - 1)) j))

/-- Derivative of the per-sample loss with respect to the preactivation of
hidden layer `l` (the value `dense p l … ` fed into `relu`), for
`l < n_layers`. -/
def dZ (A : Arch) (p : Params) (x y : Vec) (l : ℕ) : Vec :=
  fun j =>
    deltaA A p x y (A.n_layers - (l + 1)) j *
      reluDeriv (dense p l (inDim A l) (acts A p x l) j)

/-- The gradient of the per-sample loss with respect to every parameter,
by the chain rule: for the output layer (`l = n_layers`) the upstream
derivative is `dPred`, for a hidden layer `l` it is `dZ l`; a kernel
entry additionally picks up the incoming activation `acts l i`. -/
def sampleGrad (A : Arch) (p : Params) (x y : Vec) : Params where
  kernel := fun l i j =>
    if l = A.n_layers then acts A p x A.n_layers i * dPred A p x y j
    else acts A p x l i * dZ A p x y l j
  bias := fun l j =>
    if l = A.n_layers then dPred A p x y j else dZ A p x y l j

/-- The `grads` returned by `jax.value_and_grad(loss_fn)`: the gradient of
`batchLoss`, which by linearity of differentiation is the average over the
batch of the per-sample gradients. -/
def batchGrad (A : Arch) (p : Params) (x y : DArr) : Params where
  kernel := fun l i j =>
    (∑ b ∈ Finset.range x.n, (sampleGrad A p (x.val b) (y.val b)).kernel l i j) /
      (x.n : ℚ)
  bias := fun l j =>
    (∑ b ∈ Finset.range x.n, (sampleGrad A p (x.val b) (y.val b)).bias l j) /
      (x.n : ℚ)

/-- The collective `jax.lax.pmean` over the `device` axis, applied to a gradient pytree:
the entrywise average of the `D` per-device gradients. -/
def pmeanParams (D : ℕ) (g : ℕ → Params) : Params where
  kernel := fun l i j => (∑ d ∈ Finset.range D, (g d).kernel l i j) / (D : ℚ)
  bias := fun l j => (∑ d ∈ Finset.range D, (g d).bias l j) / (D : ℚ)

/-- The state bundle `flax.training.train_state.TrainState`: a step counter, the
parameters, and the optimizer's `update` function (`tx.update(grads,
opt_state, params) -> (updates, new_opt_state)`) with its state of type
`σ`.  The notebook's `tx` is `optax.adam(1e-4)`, treated as an opaque
gradient transformation; `apply_fn` is `model.apply`, i.e. `predict`,
which the step function below uses directly. -/
structure TrainState (σ : Type) where
  step : ℕ
  params : Params
  txUpdate : Params → σ → Params → Params × σ
  optState : σ

/-- The update application `optax.apply_updates`: entrywise addition of the updates to the
parameters. -/
def applyUpdates (p u : Params) : Params where
  kernel := fun l i j => p.kernel l i j + u.kernel l i j
  bias := fun l j => p.bias l j + u.bias l j

/-- The method `TrainState.apply_gradients`: run the optimizer update, add the
updates to the parameters, advance the step counter by one, and return
the new state (the old one is an immutable value). -/
def apply_gradients {σ : Type} (s : TrainState σ) (grads : Params) : TrainState σ :=
  let r := s.txUpdate grads s.optState s.params
  { s with step := s.step + 1, params := applyUpdates s.params r.1, optState := r.2 }

/-- The notebook's `train_step`, which closes over the global `mode`
string: compute loss and gradients of `loss_fn` at `state.params`, under
`mode == 'pmap'` replace the gradients by the cross-device `pmean`
(`pmeanOp` is that collective as available in the executing context; it
is never consulted in the other modes), then `apply_gradients`. -/
def train_step {σ : Type} (A : Arch) (mode : String) (pmeanOp : Params → Params)
    (s : TrainState σ) (x y : DArr) : TrainState σ × ℚ :=
  let loss := batchLoss A s.params x y
  let grads := batchGrad A s.params x y
  let grads := if mode = "pmap" then pmeanOp grads else grads
  (apply_gradients s grads, loss)

/-- The transform `jax.jit`: just-in-time compilation is semantics-preserving, so on
values it is the identity. -/
def jit {α β : Type _} (f : α → β) : α → β := f

/-- The helper `flax.jax_utils.replicate`: one copy of the state per device. -/
def replicate {σ : Type} (s : TrainState σ) : ℕ → TrainState σ := fun _ => s

/-- The reshape `jnp.reshape(a, (D, a.n // D, dim))`: device `d` receives the
contiguous block of `a.n / D` rows starting at row `d * (a.n / D)`
(row-major reshape). -/
def reshapeDev (a : DArr) (D : ℕ) : ℕ → DArr :=
  fun d => ⟨a.n / D, fun i => a.val (d * (a.n / D) + i)⟩

/-- The transform `jax.pmap(train_step, axis_name="device", in_axes=(0, 0, 0))` over `D`
devices: every device `d` runs `train_step` (in `'pmap'` mode) on its own
state and data slice, and the `pmean` collective inside the step body
averages the gradients every device computed. -/
def pmap_train_step {σ : Type} (A : Arch) (D : ℕ) (states : ℕ → TrainState σ)
    (xs ys : ℕ → DArr) : ℕ → TrainState σ × ℚ :=
  fun d =>
    train_step A "pmap"
      (fun _ => pmeanParams D (fun e => batchGrad A (states e).params (xs e) (ys e)))
      (states d) (xs d) (ys d)

/-- The valid mode strings listed in the notebook. -/
def validModes : List String := ["jit_single", "jit_multi", "pmap"]

/-- The training state after the mode dispatch: untouched on the default
device (`jit_single`), `jax.device_put` with the replicating mesh sharding
`mesh_sharding(())` (`jit_multi`, value unchanged), or
`jax_utils.replicate`d with a leading device axis (`pmap`). -/
inductive PlacedState (σ : Type) where
  | onHost (s : TrainState σ)
  | meshReplicated (s : TrainState σ)
  | perDevice (f : ℕ → TrainState σ)

/-- A batch array after the mode dispatch: untouched, `jax.device_put`
with `PartitionSpec('data')` (value unchanged, rows spread over devices),
or reshaped to a leading device axis of size `D`. -/
inductive PlacedArr where
  | onHost (a : DArr)
  | dataSharded (a : DArr)
  | perDevice (D : ℕ) (f : ℕ → DArr)

/-- The compiled step callable `train_step_compiled` bound by the
dispatch: either a `jax.jit` of `train_step`, or the `jax.pmap` of
`train_step` acting on device-indexed state and data. -/
inductive CompiledStep (σ : Type) where
  | jitted (f : TrainState σ → DArr → DArr → TrainState σ × ℚ)
  | pmapped (f : (ℕ → TrainState σ) → (ℕ → DArr) → (ℕ → DArr) → ℕ → TrainState σ × ℚ)

/-- The variable bindings (`initialized_state`, `batch_data`,
`label_data`, `train_step_compiled`) after the dispatch cell finishes. -/
structure DispatchResult (σ : Type) where
  initialized_state : PlacedState σ
  batch_data : PlacedArr
  label_data : PlacedArr
  train_step_compiled : CompiledStep σ

/-- The notebook's dispatch cell, branch for branch and in source order
(`if mode == 'jit_multi' … elif mode == 'pmap' … elif mode == 'jit_single'
… else: raise ValueError(f'Unknown mode: {mode}')`), over `D` devices. -/
def dispatch {σ : Type} (A : Arch) (D : ℕ) (mode : String) (st : TrainState σ)
    (bd ld : DArr) : Except String (DispatchResult σ) :=
  if mode = "jit_multi" then
    .ok ⟨.meshReplicated st, .dataSharded bd, .dataSharded ld,
      .jitted (jit (train_step A mode id))⟩
  else if mode = "pmap" then
    .ok ⟨.perDevice (replicate st), .perDevice D (reshapeDev bd D),
      .perDevice D (reshapeDev ld D), .pmapped (pmap_train_step A D)⟩
  else if mode = "jit_single" then
    .ok ⟨.onHost st, .onHost bd, .onHost ld, .jitted (jit (train_step A mode id))⟩
  else
    .error ("Unknown mode: " ++ mode)

/-- The device-touching actions the notebook's setup can perform, for
reasoning about their order. -/
inductive Event where
  | createBatchData
  | createLabelData
  | createModel
  | initState
  | devicePutBatch
  | devicePutLabels
  | devicePutState
  | replicateState
  | reshapeBatch
  | reshapeLabels
  | jitCompile
  | pmapCompile
  | raiseValueError
  deriving DecidableEq

/-- The notebook's setup actions in source order: the hyperparameter cell
first builds `batch_data`, `label_data` and the model and runs `init_fn`
(i.e. `model.init` plus `TrainState.create`) — unconditionally, before the
mode is ever inspected — and only then does the dispatch cell run its
branch (or raise `ValueError` on an unknown mode). -/
def setupEvents (mode : String) : List Event :=
  [.createBatchData, .createLabelData, .createModel, .initState] ++
    (if mode = "jit_multi" then
      [.devicePutBatch, .devicePutLabels, .devicePutState, .jitCompile]
    else if mode = "pmap" then
      [.replicateState, .reshapeBatch, .reshapeLabels, .pmapCompile]
    else if mode = "jit_single" then [.jitCompile]
    else [.raiseValueError])

/-- The events of a setup run that happen strictly before the
`ValueError` is raised (all of them, when no error is raised). -/
def eventsBeforeError (mode : String) : List Event :=
  (setupEvents mode).takeWhile (fun e => e ≠ Event.raiseValueError)

/-- Fixture: the smallest architecture expressible in the notebook's
family — no hidden layers, one input feature, one output feature. -/
def archEx : Arch := ⟨1, 1, 1, 0⟩

/-- Fixture: all-zero parameters for `archEx`. -/
def zeroParams : Params := ⟨fun _ _ _ => 0, fun _ _ => 0⟩

/-- Fixture: a training state whose optimizer is plain gradient descent
with unit learning rate (`updates = -grads`, no optimizer state). -/
def stateEx : TrainState Unit :=
  ⟨0, zeroParams,
    fun g s _ => (⟨fun l i j => -(g.kernel l i j), fun l j => -(g.bias l j)⟩, s), ()⟩

/-- Fixture: a two-sample all-zero input batch. -/
def bdEx : DArr := ⟨2, fun _ _ => 0⟩

/-- Fixture: two label rows, `0` for sample `0` and `2` for sample `1`,
so the two halves of the batch have different losses. -/
def ldEx : DArr := ⟨2, fun b _ => if b = 0 then 0 else 2⟩

/-- Splitting a sum over `D * S` indices into `D` contiguous blocks of
`S` (the row-major reshape pattern). -/
theorem sum_range_mul_split (g : ℕ → ℚ) (D S : ℕ) :
    ∑ b ∈ Finset.range (D * S), g b
      = ∑ d ∈ Finset.range D, ∑ i ∈ Finset.range S, g (d * S + i) := by
  induction D with
  | zero => simp
  | succ n ih => rw [Nat.succ_mul, Finset.sum_range_add, ih, Finset.sum_range_succ]

/-- The mean over `D` blocks of the per-block normalized sums (each
divided by `S * c`) equals the normalized sum over all `D * S` indices
(divided by `(D * S) * c`). -/
theorem shard_mean_div (g : ℕ → ℚ) (D S : ℕ) (c : ℚ) :
    (∑ d ∈ Finset.range D,
        (∑ i ∈ Finset.range S, g (d * S + i)) / ((S : ℚ) * c)) / (D : ℚ)
      = (∑ b ∈ Finset.range (D * S), g b) / (((D * S : ℕ) : ℚ) * c) := by
  rw [← Finset.sum_div, div_div, sum_range_mul_split]
  congr 1
  push_cast
  ring

/-- Specialization of `shard_mean_div` with no extra normalizing factor:
a mean of equal-size block means is the overall mean. -/
theorem shard_mean_div_one (g : ℕ → ℚ) (D S : ℕ) :
    (∑ d ∈ Finset.range D, (∑ i ∈ Finset.range S, g (d * S + i)) / (S : ℚ)) / (D : ℚ)
      = (∑ b ∈ Finset.range (D * S), g b) / ((D * S : ℕ) : ℚ) := by
  have h := shard_mean_div g D S 1
  simpa using h

/-- Claim C2: under `pmap` mode, for every batch whose size is a multiple
of the device count `D` (with labels of the same length) and every
parameter setting, the cross-device `pmean` of the per-device gradients
of the mean-squared-error loss on the equal-size shards equals the
gradient of the same loss on the full un-sharded batch. -/
theorem pmean_shard_grads_eq_full_grad (A : Arch) (p : Params) (bd ld : DArr) (D : ℕ)
    (hD : 0 < D) (hdvd : D ∣ bd.n) (hld : ld.n = bd.n) :
    pmeanParams D (fun d => batchGrad A p (reshapeDev bd D d) (reshapeDev ld D d))
      = batchGrad A p bd ld := by
  obtain ⟨S, hS⟩ := hdvd
  have hq : bd.n / D = S := by rw [hS]; exact Nat.mul_div_cancel_left S hD
  have hq' : ld.n / D = S := by rw [hld]; exact hq
  apply Params.ext
  · funext l i j
    simp only [pmeanParams, batchGrad, reshapeDev]
    rw [hq, hq', hS]
    exact shard_mean_div_one
      (fun b => (sampleGrad A p (bd.val b) (ld.val b)).kernel l i j) D S
  · funext l j
    simp only [pmeanParams, batchGrad, reshapeDev]
    rw [hq, hq', hS]
    exact shard_mean_div_one
      (fun b => (sampleGrad A p (bd.val b) (ld.val b)).bias l j) D S

/-- Claim C2, witness: the gradient-averaging identity instantiated at a
concrete two-sample batch split over two devices. -/
theorem pmean_shard_grads_eq_full_grad_witness :
    0 < 2 ∧ 2 ∣ bdEx.n ∧ ldEx.n = bdEx.n
    ∧ pmeanParams 2 (fun d => batchGrad archEx zeroParams (reshapeDev bdEx 2 d) (reshapeDev ldEx 2 d))
        = batchGrad archEx zeroParams bdEx ldEx :=
  ⟨by decide, by decide, by decide,
    pmean_shard_grads_eq_full_grad archEx zeroParams bdEx ldEx 2
      (by decide) (by decide) (by decide)⟩

/-- Claim C1, counterexample: with identical parameter initialization and
identical inputs, the `jit_single` step returns loss `2` on the full
batch while the `pmap` step returns loss `4` on device `1` (the step
body only `pmean`s the gradients, never the loss, so `pmap` returns each
device's own shard loss) — the values differ exactly, not merely by a
rounding tolerance, so the three modes are not numerically equivalent. -/
theorem pmap_loss_differs_from_single_loss :
    (jit (train_step archEx "jit_single" id) stateEx bdEx ldEx).2 = 2
    ∧ (pmap_train_step archEx 2 (replicate stateEx)
        (reshapeDev bdEx 2) (reshapeDev ldEx 2) 1).2 = 4
    ∧ (2 : ℚ) ≠ 4 := by
  refine ⟨?_, ?_, by norm_num⟩
  · show batchLoss archEx stateEx.params bdEx ldEx = 2
    simp [batchLoss, predict, dense, acts, archEx, stateEx, zeroParams, bdEx, ldEx,
      inDim, Finset.sum_range_succ]
    norm_num
  · show batchLoss archEx stateEx.params (reshapeDev bdEx 2 1) (reshapeDev ldEx 2 1) = 4
    simp [batchLoss, predict, dense, acts, archEx, stateEx, zeroParams, bdEx, ldEx,
      inDim, reshapeDev, Finset.sum_range_succ]
    norm_num

/-- Claim C1, amended: for identical inputs and identical parameter
initialization, the loss of the `jit_multi` step equals the loss of the
`jit_single` step exactly, and the `pmap` step returns one loss per
device — that device's shard loss — whose mean over the devices equals
the `jit_single` loss exactly; the individual per-device losses need not
equal it. -/
theorem mode_loss_relation {σ : Type} (A : Arch) (st : TrainState σ) (bd ld : DArr)
    (D : ℕ) (hD : 0 < D) (hdvd : D ∣ bd.n) (hld : ld.n = bd.n) :
    (jit (train_step A "jit_multi" id) st bd ld).2
        = (jit (train_step A "jit_single" id) st bd ld).2
    ∧ (∑ d ∈ Finset.range D,
          (pmap_train_step A D (replicate st) (reshapeDev bd D) (reshapeDev ld D) d).2)
          / (D : ℚ)
        = (jit (train_step A "jit_single" id) st bd ld).2 := by
  obtain ⟨S, hS⟩ := hdvd
  have hq : bd.n / D = S := by rw [hS]; exact Nat.mul_div_cancel_left S hD
  have hq' : ld.n / D = S := by rw [hld]; exact hq
  constructor
  · rfl
  · show (∑ d ∈ Finset.range D,
        batchLoss A st.params (reshapeDev bd D d) (reshapeDev ld D d)) / (D : ℚ)
      = batchLoss A st.params bd ld
    simp only [batchLoss, reshapeDev]
    rw [hq, hq', hS]
    exact shard_mean_div
      (fun b => ∑ j ∈ Finset.range A.output_dim,
        (predict A st.params (bd.val b) j - ld.val b j) ^ 2)
      D S (A.output_dim : ℚ)

/-- Claim C1, witness: the amended loss relation instantiated at a
concrete two-sample batch over two devices. -/
theorem mode_loss_relation_witness :
    0 < 2 ∧ 2 ∣ bdEx.n ∧ ldEx.n = bdEx.n
    ∧ ((jit (train_step archEx "jit_multi" id) stateEx bdEx ldEx).2
          = (jit (train_step archEx "jit_single" id) stateEx bdEx ldEx).2
      ∧ (∑ d ∈ Finset.range 2,
            (pmap_train_step archEx 2 (replicate stateEx)
              (reshapeDev bdEx 2) (reshapeDev ldEx 2) d).2) / ((2 : ℕ) : ℚ)
          = (jit (train_step archEx "jit_single" id) stateEx bdEx ldEx).2) :=
  ⟨by decide, by decide, by decide,
    mode_loss_relation archEx stateEx bdEx ldEx 2 (by decide) (by decide) (by decide)⟩

/-- Claim C3: the dispatch succeeds on the three valid mode strings, it
raises the configuration error `ValueError('Unknown mode: …')` on every
other mode string, and that is the only error the authored dispatch logic
can produce. -/
theorem dispatch_unknown_mode_error {σ : Type} (A : Arch) (D : ℕ) (mode : String)
    (st : TrainState σ) (bd ld : DArr) :
    (mode ∈ validModes → ∃ r, dispatch A D mode st bd ld = Except.ok r)
    ∧ (mode ∉ validModes →
        dispatch A D mode st bd ld = Except.error ("Unknown mode: " ++ mode))
    ∧ ∀ e, dispatch A D mode st bd ld = Except.error e →
        mode ∉ validModes ∧ e = "Unknown mode: " ++ mode := by
  by_cases h1 : mode = "jit_multi"
  · subst h1
    refine ⟨fun _ => ⟨⟨.meshReplicated st, .dataSharded bd, .dataSharded ld,
        .jitted (jit (train_step A "jit_multi" id))⟩, by simp [dispatch]⟩,
      fun h => absurd (by simp [validModes]) h, fun e he => ?_⟩
    simp [dispatch] at he
  by_cases h2 : mode = "pmap"
  · subst h2
    refine ⟨fun _ => ⟨⟨.perDevice (replicate st), .perDevice D (reshapeDev bd D),
        .perDevice D (reshapeDev ld D), .pmapped (pmap_train_step A D)⟩, by simp [dispatch]⟩,
      fun h => absurd (by simp [validModes]) h, fun e he => ?_⟩
    simp [dispatch] at he
  by_cases h3 : mode = "jit_single"
  · subst h3
    refine ⟨fun _ => ⟨⟨.onHost st, .onHost bd, .onHost ld,
        .jitted (jit (train_step A "jit_single" id))⟩, by simp [dispatch]⟩,
      fun h => absurd (by simp [validModes]) h, fun e he => ?_⟩
    simp [dispatch] at he
  have hinv : mode ∉ validModes := by simp [validModes, h1, h2, h3]
  have herr : dispatch (σ := σ) A D mode st bd ld
      = Except.error ("Unknown mode: " ++ mode) := by
    simp [dispatch, h1, h2, h3]
  refine ⟨fun h => absurd h hinv, fun _ => herr, fun e he => ⟨hinv, ?_⟩⟩
  rw [herr] at he
  exact (Except.error.inj he).symm

/-- Claim C3, witness: the dispatch at the unrecognized mode string
`"bad"` produces exactly the configuration error. -/
theorem dispatch_unknown_mode_error_witness :
    ("bad" ∉ validModes)
    ∧ dispatch archEx 2 "bad" stateEx bdEx ldEx
        = Except.error ("Unknown mode: " ++ "bad") :=
  ⟨by decide, (dispatch_unknown_mode_error archEx 2 "bad" stateEx bdEx ldEx).2.1 (by decide)⟩

/-- Claim C4, counterexample: with the unrecognized mode string `"foo"`
the setup still creates the batch, the labels and the model and runs the
full state initialization before the `ValueError` is raised — those cells
precede the dispatch unconditionally — so it is false that no model/state
initialization or data placement happens prior to the error. -/
theorem init_runs_before_unknown_mode_error :
    setupEvents "foo"
      = [.createBatchData, .createLabelData, .createModel, .initState, .raiseValueError]
    ∧ Event.initState ∈ eventsBeforeError "foo" := by
  constructor
  · simp [setupEvents]
  · simp [eventsBeforeError, setupEvents, List.takeWhile]

/-- Claim C4, amended: for every unrecognized mode string the
`ValueError` is raised, and it is raised before any *mode-specific*
device work — no `device_put`, replication, reshape or compilation has
happened by then — but the batch/label creation, model creation and state
initialization of the hyperparameter cell do run before the error,
whatever the mode string is. -/
theorem unknown_mode_error_before_mode_specific_work (mode : String)
    (h : mode ∉ validModes) :
    Event.raiseValueError ∈ setupEvents mode
    ∧ eventsBeforeError mode
        = [.createBatchData, .createLabelData, .createModel, .initState]
    ∧ ∀ e ∈ eventsBeforeError mode,
        e ≠ Event.devicePutBatch ∧ e ≠ Event.devicePutLabels
        ∧ e ≠ Event.devicePutState ∧ e ≠ Event.replicateState
        ∧ e ≠ Event.reshapeBatch ∧ e ≠ Event.reshapeLabels
        ∧ e ≠ Event.jitCompile ∧ e ≠ Event.pmapCompile := by
  have h1 : mode ≠ "jit_multi" := fun hh => h (by simp [validModes, hh])
  have h2 : mode ≠ "pmap" := fun hh => h (by simp [validModes, hh])
  have h3 : mode ≠ "jit_single" := fun hh => h (by simp [validModes, hh])
  have hset : setupEvents mode
      = [.createBatchData, .createLabelData, .createModel, .initState, .raiseValueError] := by
    simp [setupEvents, h1, h2, h3]
  have hbefore : eventsBeforeError mode
      = [.createBatchData, .createLabelData, .createModel, .initState] := by
    rw [eventsBeforeError, hset]
    simp [List.takeWhile]
  refine ⟨?_, hbefore, ?_⟩
  · rw [hset]; simp
  · rw [hbefore]
    intro e he
    fin_cases he <;> simp

/-- Claim C4, witness: the amended ordering statement instantiated at the
unrecognized mode string `"xyz"`. -/
theorem unknown_mode_error_before_mode_specific_work_witness :
    ("xyz" ∉ validModes)
    ∧ (Event.raiseValueError ∈ setupEvents "xyz"
      ∧ eventsBeforeError "xyz"
          = [.createBatchData, .createLabelData, .createModel, .initState]
      ∧ ∀ e ∈ eventsBeforeError "xyz",
          e ≠ Event.devicePutBatch ∧ e ≠ Event.devicePutLabels
          ∧ e ≠ Event.devicePutState ∧ e ≠ Event.replicateState
          ∧ e ≠ Event.reshapeBatch ∧ e ≠ Event.reshapeLabels
          ∧ e ≠ Event.jitCompile ∧ e ≠ Event.pmapCompile) :=
  ⟨by decide, unknown_mode_error_before_mode_specific_work "xyz" (by decide)⟩

/-- Claim C5: the cross-device `pmean` is applied inside the step body
exactly when the mode is `pmap`: in any other mode `train_step` applies
the raw `value_and_grad` gradients to the state unchanged; in `pmap` mode
the gradient applied is the `pmean` over the devices (each device of the
`pmap`ped step applies the cross-device average, not its own raw
gradient). -/
theorem pmean_applied_iff_pmap_mode (A : Arch) {σ : Type} :
    (∀ (mode : String) (pm : Params → Params) (s : TrainState σ) (x y : DArr),
        mode ≠ "pmap" →
          train_step A mode pm s x y
            = (apply_gradients s (batchGrad A s.params x y), batchLoss A s.params x y))
    ∧ (∀ (pm : Params → Params) (s : TrainState σ) (x y : DArr),
        train_step A "pmap" pm s x y
          = (apply_gradients s (pm (batchGrad A s.params x y)), batchLoss A s.params x y))
    ∧ (∀ (D : ℕ) (states : ℕ → TrainState σ) (xs ys : ℕ → DArr) (d : ℕ),
        pmap_train_step A D states xs ys d
          = (apply_gradients (states d)
              (pmeanParams D (fun e => batchGrad A (states e).params (xs e) (ys e))),
            batchLoss A (states d).params (xs d) (ys d))) := by
  refine ⟨fun mode pm s x y hmode => ?_, fun pm s x y => ?_, fun D states xs ys d => ?_⟩
  · simp [train_step, hmode]
  · simp [train_step]
  · simp [pmap_train_step, train_step]

/-- Claim C5, witness: in `jit_single` mode (which is not `pmap`) the raw
gradients are applied unchanged, at a concrete state and batch. -/
theorem pmean_applied_iff_pmap_mode_witness :
    ("jit_single" : String) ≠ "pmap"
    ∧ train_step archEx "jit_single" id stateEx bdEx ldEx
        = (apply_gradients stateEx (batchGrad archEx stateEx.params bdEx ldEx),
          batchLoss archEx stateEx.params bdEx ldEx) :=
  ⟨by decide,
    (pmean_applied_iff_pmap_mode archEx).1 "jit_single" id stateEx bdEx ldEx (by decide)⟩

/-- Claim C6: each of the three valid mode strings makes the dispatch
succeed and bind `train_step_compiled` to a step callable — a `jit` of
`train_step` for the two `jit` modes and the `pmap` of `train_step` for
`pmap` mode. -/
theorem dispatch_valid_modes_bind_step {σ : Type} (A : Arch) (D : ℕ)
    (st : TrainState σ) (bd ld : DArr) :
    (∃ r : DispatchResult σ, dispatch A D "jit_single" st bd ld = Except.ok r
      ∧ r.train_step_compiled = CompiledStep.jitted (jit (train_step A "jit_single" id)))
    ∧ (∃ r : DispatchResult σ, dispatch A D "jit_multi" st bd ld = Except.ok r
      ∧ r.train_step_compiled = CompiledStep.jitted (jit (train_step A "jit_multi" id)))
    ∧ (∃ r : DispatchResult σ, dispatch A D "pmap" st bd ld = Except.ok r
      ∧ r.train_step_compiled = CompiledStep.pmapped (pmap_train_step A D)) := by
  refine ⟨⟨⟨.onHost st, .onHost bd, .onHost ld,
      .jitted (jit (train_step A "jit_single" id))⟩, by simp [dispatch], rfl⟩,
    ⟨⟨.meshReplicated st, .dataSharded bd, .dataSharded ld,
      .jitted (jit (train_step A "jit_multi" id))⟩, by simp [dispatch], rfl⟩,
    ⟨⟨.perDevice (replicate st), .perDevice D (reshapeDev bd D),
      .perDevice D (reshapeDev ld D), .pmapped (pmap_train_step A D)⟩,
      by simp [dispatch], rfl⟩⟩

/-- Claim C7: the training step never mutates the state it receives —
states are immutable values in this embedding, and the step builds its
result by exactly one `apply_gradients` on the input state (the step
counter advances by exactly one), returning the loss computed from the
input state's parameters. -/
theorem train_step_replaces_state_once (A : Arch) {σ : Type} (mode : String)
    (pm : Params → Params) (s : TrainState σ) (x y : DArr) :
    (train_step A mode pm s x y).1
        = apply_gradients s
            (if mode = "pmap" then pm (batchGrad A s.params x y)
              else batchGrad A s.params x y)
    ∧ (train_step A mode pm s x y).1.step = s.step + 1
    ∧ (train_step A mode pm s x y).2 = batchLoss A s.params x y := by
  refine ⟨rfl, ?_, rfl⟩
  show (apply_gradients s _).step = s.step + 1
  rfl

/-- Claim C8: under `jit_single` mode the dispatcher leaves the
initialized state and both batch arrays completely unchanged — no
replication, sharding, reshaping or device placement, only the `jit`
compilation of the step function. -/
theorem jit_single_dispatch_leaves_inputs_unchanged {σ : Type} (A : Arch) (D : ℕ)
    (st : TrainState σ) (bd ld : DArr) :
    dispatch A D "jit_single" st bd ld
      = Except.ok ⟨PlacedState.onHost st, PlacedArr.onHost bd, PlacedArr.onHost ld,
          CompiledStep.jitted (jit (train_step A "jit_single" id))⟩ := by
  simp [dispatch]

/-- Claim C9: the training step is deterministic — two runs on equal
states, inputs, labels (and the same collective in scope) return equal
new states and equal losses; no hidden input enters the step. -/
theorem train_step_deterministic (A : Arch) {σ : Type} (mode : String)
    (pm₁ pm₂ : Params → Params) (s₁ s₂ : TrainState σ) (x₁ x₂ y₁ y₂ : DArr)
    (hpm : pm₁ = pm₂) (hs : s₁ = s₂) (hx : x₁ = x₂) (hy : y₁ = y₂) :
    train_step A mode pm₁ s₁ x₁ y₁ = train_step A mode pm₂ s₂ x₂ y₂ := by
  subst hpm
  subst hs
  subst hx
  subst hy
  rfl

/-- Claim C9, witness: determinism instantiated at a concrete state and
batch. -/
theorem train_step_deterministic_witness :
    train_step archEx "jit_single" id stateEx bdEx ldEx
      = train_step archEx "jit_single" id stateEx bdEx ldEx :=
  train_step_deterministic archEx "jit_single" id id stateEx stateEx bdEx bdEx ldEx ldEx
    rfl rfl rfl rfl

/-- Claim C10: the loss returned by every training step is non-negative,
being a mean of elementwise squared differences. -/
theorem train_step_loss_nonneg (A : Arch) {σ : Type} (mode : String)
    (pm : Params → Params) (s : TrainState σ) (x y : DArr) :
    0 ≤ (train_step A mode pm s x y).2 := by
  show 0 ≤ batchLoss A s.params x y
  unfold batchLoss
  positivity

end DistrFlax
